import Mathlib

/-!
# Verification of the QtOpenCV pixel-buffer converter

Shallow embedding of `src/cvmatandqimage.cpp` (namespace `QtOcv`): the four
public conversions `image2Mat`, `mat2Image`, `image2Mat_shared`,
`mat2Image_shared` between Qt `QImage` and OpenCV `cv::Mat`.

Modelling conventions:
* A `QImage` is its format tag, geometry, bytes-per-line (Qt aligns scan
  lines of freshly allocated images to 4 bytes: `bpl = ((w*depth+31)/32)*4`),
  the scan-line bytes (each row a list of `bpl` bytes), the color table and
  the base address of its byte region.  Byte order within a pixel is the
  physical little-endian order the C++ code reads: `B,G,R,A` for
  `Format_RGB32`/`Format_ARGB32`, `R,G,B` for `Format_RGB888`.
* A `cv::Mat` is its geometry, channel count, element depth (`CV_8U` or
  `CV_16U`; the `CV_32F` path is floating point and outside this model),
  the element rows (`cols * channels` values per row), the row stride in
  bytes and the base address.  A freshly allocated mat is continuous:
  `step = cols * channels * elemSize`.
* The format universe is restricted to the formats the claims exercise:
  the four canonical formats of the converter plus `RGB16` (a
  representative non-canonical format) and `Invalid` (the format of a
  default-constructed null `QImage`).
-/

set_option maxRecDepth 1024

namespace QtOcv

/-- The QImage pixel formats of the model: the four formats the converter
handles natively, one representative non-canonical format (`RGB16`), and
the format of a null image. -/
inductive QImageFormat where
  | Invalid
  | Indexed8
  | RGB32
  | ARGB32
  | RGB888
  | RGB16
deriving DecidableEq

/-- Bits per pixel of a format (`QImage::depth()`). -/
def QImageFormat.bitDepth : QImageFormat → Nat
  | .Invalid => 0
  | .Indexed8 => 8
  | .RGB32 => 32
  | .ARGB32 => 32
  | .RGB888 => 24
  | .RGB16 => 16

/-- Qt's bytes-per-line computation for a freshly allocated image:
scan lines are padded to a multiple of 4 bytes
(`((width * depth + 31) >> 5) << 2`). -/
def qBytesPerLine (w depth : Nat) : Nat := ((w * depth + 31) / 32) * 4

/-- Qt's `qRgb(r,g,b)`: an opaque `0xffRRGGBB` packed value, each channel
masked to 8 bits. -/
def qRgb (r g b : Nat) : Nat :=
  4278190080 + (r % 256) * 65536 + (g % 256) * 256 + (b % 256)

/-- A `QImage`: format, geometry, bytes per line, scan-line bytes, color
table, and base address of the byte region. -/
structure QImage where
  format : QImageFormat
  width : Nat
  height : Nat
  bpl : Nat
  qrows : List (List Nat)
  colorTable : List Nat
  addr : Nat
deriving DecidableEq

/-- A default-constructed (null) `QImage`. -/
def emptyImage : QImage :=
  { format := .Invalid, width := 0, height := 0, bpl := 0,
    qrows := [], colorTable := [], addr := 0 }

/-- `QImage::isNull()`: true when the image has no pixels. -/
def QImage.isNull (img : QImage) : Bool := img.width == 0 || img.height == 0

/-- `QImage::scanLine(i)`: the bytes of row `i`. -/
def QImage.scanLine (img : QImage) (i : Nat) : List Nat := img.qrows.getD i []

/-- Byte `j` of scan line `i`. -/
def QImage.byte (img : QImage) (i j : Nat) : Nat := (img.scanLine i).getD j 0

/-- Structural well-formedness of a `QImage`: row count matches the height,
every row holds exactly `bpl` bytes, and `bpl` covers the pixel data. -/
def QImage.WF (img : QImage) : Prop :=
  img.qrows.length = img.height ∧
  (∀ r ∈ img.qrows, r.length = img.bpl) ∧
  img.width * (img.format.bitDepth / 8) ≤ img.bpl

instance (img : QImage) : Decidable img.WF := by
  unfold QImage.WF; infer_instance

/-- Element depth of a `cv::Mat` in the model (`CV_8U` or `CV_16U`). -/
inductive MatDepth where
  | d8U
  | d16U
deriving DecidableEq

/-- Bytes per element. -/
def MatDepth.elemBytes : MatDepth → Nat
  | .d8U => 1
  | .d16U => 2

/-- A `cv::Mat`: geometry, channels, element depth, element rows
(`cols * channels` values per row), row stride in bytes, base address. -/
structure CvMat where
  rows : Nat
  cols : Nat
  channels : Nat
  depth : MatDepth
  data : List (List Nat)
  step : Nat
  addr : Nat
deriving DecidableEq

/-- A default-constructed (empty) `cv::Mat`. -/
def emptyMat : CvMat :=
  { rows := 0, cols := 0, channels := 0, depth := .d8U,
    data := [], step := 0, addr := 0 }

/-- `cv::Mat::empty()`: true when the mat has no pixels. -/
def CvMat.isEmpty (m : CvMat) : Bool := m.rows == 0 || m.cols == 0

/-- Element `j` of row `i` (row-major, channel-interleaved). -/
def CvMat.elem (m : CvMat) (i j : Nat) : Nat := (m.data.getD i []).getD j 0

/-- Structural well-formedness of a `CvMat`: row count matches and every
row holds exactly `cols * channels` elements. -/
def CvMat.WF (m : CvMat) : Prop :=
  m.data.length = m.rows ∧ ∀ r ∈ m.data, r.length = m.cols * m.channels

instance (m : CvMat) : Decidable m.WF := by
  unfold CvMat.WF; infer_instance

/-! ## Row transforms of the Channel Remapper

Each loop body of `image2Mat` / `mat2Image` acts on one scan line at a
time; we embed each as a function on the row's byte list. -/

/-- Pad a freshly written row out to `n` bytes (the bytes past the pixel
payload of a scan line are allocation padding, modelled as zeros). -/
def padRow (n : Nat) (r : List Nat) : List Nat :=
  r ++ List.replicate (n - r.length) 0

/-- 1-channel destination, non-indexed source (`image2Mat`, channels==1):
`(*data * 3728 + *(data+1) * 19238 + *(data+2) * 9798) / 32768` with
`data` stepping by `bpp` bytes per pixel. -/
def lumaRow (w bpp : Nat) (r : List Nat) : List Nat :=
  (List.range w).map (fun j =>
    (r.getD (bpp * j) 0 * 3728 + r.getD (bpp * j + 1) 0 * 19238 +
      r.getD (bpp * j + 2) 0 * 9798) / 32768)

/-- 3-channel destination from a gray source: replicate each byte into
all three channels. -/
def gray3Row (w : Nat) (r : List Nat) : List Nat :=
  (List.range w).flatMap (fun j => [r.getD j 0, r.getD j 0, r.getD j 0])

/-- 4-channel destination from a gray source: replicate into the first
three channels, alpha set to 255. -/
def gray4Row (w : Nat) (r : List Nat) : List Nat :=
  (List.range w).flatMap (fun j => [r.getD j 0, r.getD j 0, r.getD j 0, 255])

/-- 3-channel destination from a 4-byte-per-pixel source: copy the first
three bytes of each pixel, dropping the fourth. -/
def drop4to3Row (w : Nat) (r : List Nat) : List Nat :=
  (List.range w).flatMap (fun j =>
    [r.getD (4 * j) 0, r.getD (4 * j + 1) 0, r.getD (4 * j + 2) 0])

/-- 4-channel destination from a 3-byte-per-pixel source: copy the three
bytes of each pixel and append alpha 255. -/
def rgb3to4Row (w : Nat) (r : List Nat) : List Nat :=
  (List.range w).flatMap (fun j =>
    [r.getD (3 * j) 0, r.getD (3 * j + 1) 0, r.getD (3 * j + 2) 0, 255])

/-- Modelled from the spec: the expansion of a reduced-color 16-bit-packed
pixel to 8-bit RGB is performed by Qt's `QImage::convertToFormat`, which is
library code absent from `src/`; the spec's Normalizer expands such formats
to 8-bit 3-channel.  One RGB16 (5-6-5) pixel, given as its two
little-endian bytes, expanded by bit replication to an `R,G,B` triple. -/
def rgb16PixelBytes (lo hi : Nat) : List Nat :=
  let v := (lo + 256 * hi) % 65536
  let r5 := v / 2048
  let g6 := (v / 32) % 64
  let b5 := v % 32
  [r5 * 8 + r5 / 4, g6 * 4 + g6 / 16, b5 * 8 + b5 / 4]

/-- Modelled from the spec: one RGB16 scan line expanded to an RGB888
scan line (see `rgb16PixelBytes`). -/
def rgb16Row (w : Nat) (r : List Nat) : List Nat :=
  (List.range w).flatMap (fun j =>
    rgb16PixelBytes (r.getD (2 * j) 0) (r.getD (2 * j + 1) 0))

/-- The Normalizer step of `image2Mat` (lines 51-71): the four canonical
formats pass through unchanged; `RGB16` is converted to `RGB888`
(`img.convertToFormat(QImage::Format_RGB888)`); converting an invalid
(null) image yields the null image. -/
def normalizeImage (img : QImage) : QImage :=
  match img.format with
  | .Indexed8 | .RGB32 | .ARGB32 | .RGB888 => img
  | .RGB16 =>
    { format := .RGB888, width := img.width, height := img.height,
      bpl := qBytesPerLine img.width 24,
      qrows := (List.range img.height).map (fun i =>
        padRow (qBytesPerLine img.width 24) (rgb16Row img.width (img.scanLine i))),
      colorTable := [], addr := 0 }
  | .Invalid => emptyImage

/-- `QtOcv::image2Mat` (lines 40-129): copying conversion from a `QImage`
to a `CV_8UC(channels)` mat.  Rejects channel counts outside `{0,1,3,4}`
and null images; normalizes the source format; `channels == 0` means
auto (`image.depth()/8`); then remaps row by row. -/
def image2Mat (img : QImage) (mat_channels : Nat) : CvMat :=
  if ¬(mat_channels = 0 ∨ mat_channels = 1 ∨ mat_channels = 3 ∨ mat_channels = 4) then
    emptyMat
  else if img.isNull then emptyMat
  else
    let image := normalizeImage img
    let channels := if mat_channels = 0 then image.format.bitDepth / 8 else mat_channels
    let rowFn : List Nat → List Nat :=
      if channels = 1 then
        if image.format = .Indexed8 then (fun r => r.take img.width)
        else lumaRow image.width (image.format.bitDepth / 8)
      else if channels = 3 then
        if image.format = .Indexed8 then gray3Row image.width
        else if image.format = .RGB888 then (fun r => r.take (img.width * 3))
        else drop4to3Row image.width
      else
        if image.format = .Indexed8 then gray4Row image.width
        else if image.format = .RGB888 then rgb3to4Row image.width
        else (fun r => r.take (img.width * 4))
    { rows := image.height, cols := image.width, channels := channels,
      depth := .d8U,
      data := (List.range image.height).map (fun i => rowFn (image.scanLine i)),
      step := image.width * channels, addr := 0 }

/-- Modelled from the spec: `cv::Mat::convertTo` is OpenCV library code
absent from `src/`; the spec's Depth Normalizer rescales a 16-bit element
by `255/65535` with integer-truncation semantics. -/
def rescale16 (v : Nat) : Nat := v * 255 / 65535

/-- The Depth Normalizer step of `mat2Image` (lines 146-153): 8-bit data
passes through; 16-bit data is rescaled to a fresh continuous 8-bit mat. -/
def to8bit (m : CvMat) : CvMat :=
  match m.depth with
  | .d8U => m
  | .d16U =>
    { m with
      depth := .d8U
      data := m.data.map (fun r => r.map rescale16)
      step := m.cols * m.channels }

/-- Modelled from the spec: `cv::cvtColor` (`CV_BGR2GRAY`/`CV_BGRA2GRAY`)
is OpenCV library code absent from `src/`; the spec only requires a
BGR-to-gray luminance reduction here, embedded with OpenCV's fixed-point
BT.601 weights.  `ch` is the source channel count. -/
def cvtGrayRow (ch w : Nat) (r : List Nat) : List Nat :=
  (List.range w).map (fun j =>
    (r.getD (ch * j) 0 * 1868 + r.getD (ch * j + 1) 0 * 9617 +
      r.getD (ch * j + 2) 0 * 4899 + 8192) / 16384)

/-- The synthesized identity grayscale palette (lines 208-211, 261-264):
256 entries, entry `i` is `qRgb(i,i,i)`. -/
def grayColorTable : List Nat := (List.range 256).map (fun i => qRgb i i i)

/-- `QtOcv::mat2Image` (lines 138-220): copying conversion from a mat to
a `QImage` of the requested format.  Applies the Depth Normalizer, then
remaps row by row into a freshly allocated image (scan lines 4-byte
aligned); the `Indexed8` destination first reduces a 3/4-channel mat to
gray and attaches the identity grayscale palette.  An unsupported format
argument leaves the default-constructed null image. -/
def mat2Image (mat : CvMat) (format : QImageFormat) : QImage :=
  if mat.isEmpty then emptyImage
  else
    let mb := to8bit mat
    if format = .RGB32 then
      let bpl := qBytesPerLine mb.cols 32
      let rowFn : List Nat → List Nat :=
        if mb.channels = 1 then gray4Row mb.cols
        else if mb.channels = 3 then rgb3to4Row mb.cols
        else if mb.channels = 4 then (fun r => r.take (mb.cols * 4))
        else (fun _ => [])
      { format := .RGB32, width := mb.cols, height := mat.rows, bpl := bpl,
        qrows := (List.range mat.rows).map (fun i =>
          padRow bpl (rowFn (mb.data.getD i []))),
        colorTable := [], addr := 0 }
    else if format = .RGB888 then
      let bpl := qBytesPerLine mb.cols 24
      let rowFn : List Nat → List Nat :=
        if mb.channels = 1 then gray3Row mb.cols
        else if mb.channels = 3 then (fun r => r.take (mb.cols * 3))
        else if mb.channels = 4 then drop4to3Row mb.cols
        else (fun _ => [])
      { format := .RGB888, width := mb.cols, height := mat.rows, bpl := bpl,
        qrows := (List.range mat.rows).map (fun i =>
          padRow bpl (rowFn (mb.data.getD i []))),
        colorTable := [], addr := 0 }
    else if format = .Indexed8 then
      let mg :=
        if mb.channels = 3 then
          { mb with
            channels := 1
            data := (List.range mb.rows).map (fun i =>
              cvtGrayRow 3 mb.cols (mb.data.getD i []))
            step := mb.cols }
        else if mb.channels = 4 then
          { mb with
            channels := 1
            data := (List.range mb.rows).map (fun i =>
              cvtGrayRow 4 mb.cols (mb.data.getD i []))
            step := mb.cols }
        else mb
      let bpl := qBytesPerLine mg.cols 8
      { format := .Indexed8, width := mg.cols, height := mg.rows, bpl := bpl,
        qrows := (List.range mg.rows).map (fun i =>
          padRow bpl ((mg.data.getD i []).take mg.cols)),
        colorTable := grayColorTable, addr := 0 }
    else emptyImage

/-- `QtOcv::image2Mat_shared` (lines 227-244): zero-copy view of a
`QImage` as a mat.  The four canonical formats yield
`cv::Mat(h, w, CV_8UC(depth/8), img.bits(), img.bytesPerLine())`
— same byte region, same stride; any other format yields the empty mat. -/
def image2Mat_shared (img : QImage) : CvMat :=
  if img.isNull then emptyMat
  else
    match img.format with
    | .Indexed8 | .RGB888 | .RGB32 | .ARGB32 =>
      { rows := img.height, cols := img.width,
        channels := img.format.bitDepth / 8, depth := .d8U,
        data := img.qrows, step := img.bpl, addr := img.addr }
    | _ => emptyMat

/-- `QtOcv::mat2Image_shared` (lines 251-272): zero-copy view of a mat as
a `QImage` built from `mat.data`, `mat.cols`, `mat.rows`, `mat.step`.
`CV_8UC1` gets `Format_Indexed8` plus the identity grayscale palette,
`CV_8UC3` gets `Format_RGB888`, `CV_8UC4` gets `Format_ARGB32`; any other
type leaves the default-constructed null image. -/
def mat2Image_shared (mat : CvMat) : QImage :=
  if mat.isEmpty then emptyImage
  else if mat.depth = .d8U ∧ mat.channels = 1 then
    { format := .Indexed8, width := mat.cols, height := mat.rows,
      bpl := mat.step, qrows := mat.data, colorTable := grayColorTable,
      addr := mat.addr }
  else if mat.depth = .d8U ∧ mat.channels = 3 then
    { format := .RGB888, width := mat.cols, height := mat.rows,
      bpl := mat.step, qrows := mat.data, colorTable := [],
      addr := mat.addr }
  else if mat.depth = .d8U ∧ mat.channels = 4 then
    { format := .ARGB32, width := mat.cols, height := mat.rows,
      bpl := mat.step, qrows := mat.data, colorTable := [],
      addr := mat.addr }
  else emptyImage

/-- The byte at row `i`, offset `j` of a buffer whose byte region starts
at `addr` with row stride `stride`, read from a memory state `mem`. -/
def byteAt (mem : Nat → Nat) (addr stride i j : Nat) : Nat :=
  mem (addr + i * stride + j)

/-! ## List helper lemmas -/

theorem getD_range_map {α : Type} (f : Nat → α) (n i : Nat) (d : α) (h : i < n) :
    ((List.range n).map f).getD i d = f i := by
  rw [List.getD_eq_getElem?_getD, List.getElem?_map, List.getElem?_range h]
  rfl

theorem getD_take_lt {α : Type} (l : List α) (n i : Nat) (d : α) (h : i < n) :
    (l.take n).getD i d = l.getD i d := by
  rw [List.getD_eq_getElem?_getD, List.getElem?_take, if_pos h,
    List.getD_eq_getElem?_getD]

theorem getD_map_lt {α β : Type} (f : α → β) (l : List α) (i : Nat) (d : β) (d' : α)
    (h : i < l.length) : (l.map f).getD i d = f (l.getD i d') := by
  rw [List.getD_eq_getElem?_getD, List.getElem?_map, List.getElem?_eq_getElem h,
    List.getD_eq_getElem?_getD, List.getElem?_eq_getElem h]
  rfl

theorem getD_map_nil {α β : Type} (g : List α → List β) (l : List (List α)) (i : Nat)
    (hg : g [] = []) : (l.map g).getD i [] = g (l.getD i []) := by
  rcases Nat.lt_or_ge i l.length with h | h
  · exact getD_map_lt g l i [] [] h
  · rw [List.getD_eq_getElem?_getD, List.getElem?_map,
      List.getElem?_eq_none (by simpa using h), List.getD_eq_getElem?_getD,
      List.getElem?_eq_none (by simpa using h)]
    simpa using hg.symm

theorem flatMap_const_length {α : Type} (pix : Nat → List α) (c : Nat)
    (hc : ∀ j, (pix j).length = c) (w : Nat) :
    ((List.range w).flatMap pix).length = w * c := by
  induction w with
  | zero => simp
  | succ n ih =>
    rw [show n + 1 = n + 1 from rfl, List.range_succ, List.flatMap_append,
      List.length_append, ih]
    simp [hc]
    ring

theorem flatMap_const_getD {α : Type} (pix : Nat → List α) (c : Nat)
    (hc : ∀ j, (pix j).length = c) (w j k : Nat) (d : α) (hj : j < w) (hk : k < c) :
    ((List.range w).flatMap pix).getD (c * j + k) d = (pix j).getD k d := by
  induction w with
  | zero => omega
  | succ n ih =>
    rw [List.range_succ, List.flatMap_append]
    have hl : ((List.range n).flatMap pix).length = c * n := by
      rw [flatMap_const_length pix c hc]; ring
    rcases Nat.lt_succ_iff_lt_or_eq.mp hj with h | h
    · rw [List.getD_append]
      · exact ih h
      · rw [hl]
        calc c * j + k < c * j + c := by omega
          _ = c * (j + 1) := by ring
          _ ≤ c * n := Nat.mul_le_mul_left c h
    · subst h
      rw [List.getD_append_right]
      · rw [hl]
        have : c * j + k - c * j = k := by omega
        rw [this]
        simp
      · rw [hl]
        omega

theorem padRow_getD_lt (n : Nat) (r : List Nat) (j : Nat) (h : j < r.length) :
    (padRow n r).getD j 0 = r.getD j 0 :=
  List.getD_append r _ 0 j h

theorem padRow_eq_self (n : Nat) (r : List Nat) (h : n ≤ r.length) :
    padRow n r = r := by
  unfold padRow
  rw [Nat.sub_eq_zero_of_le h, List.replicate_zero, List.append_nil]

theorem qBPL_tight (w d : Nat) (hd : d = 8 ∨ d = 24 ∨ d = 32) (h : 4 ∣ w * (d / 8)) :
    qBytesPerLine w d = w * (d / 8) := by
  obtain ⟨k, hk⟩ := h
  unfold qBytesPerLine
  rcases hd with h | h | h <;> subst h <;> omega

theorem isNull_false_of_dims (img : QtOcv.QImage) (hw : 0 < img.width)
    (hh : 0 < img.height) : img.isNull = false := by
  unfold QtOcv.QImage.isNull
  simp only [Bool.or_eq_false_iff, beq_eq_false_iff_ne]
  omega

theorem isEmpty_false_of_dims (m : QtOcv.CvMat) (hr : 0 < m.rows)
    (hc : 0 < m.cols) : m.isEmpty = false := by
  unfold QtOcv.CvMat.isEmpty
  simp only [Bool.or_eq_false_iff, beq_eq_false_iff_ne]
  omega

/-! ## C1 / C10: the luminance reduction -/

/-- Reduction of `image2Mat` on a non-null `Format_RGB32` image with
`dst_channels = 1`: the luminance path with 4 bytes per pixel. -/
theorem i2m_rgb32_1 (w h bpl : Nat) (rows : List (List Nat)) (ct : List Nat)
    (ad : Nat) (hw : 0 < w) (hh : 0 < h) :
    image2Mat ⟨.RGB32, w, h, bpl, rows, ct, ad⟩ 1 =
      { rows := h, cols := w, channels := 1, depth := .d8U,
        data := (List.range h).map (fun i => lumaRow w 4 (rows.getD i [])),
        step := w * 1, addr := 0 } := by
  unfold image2Mat
  rw [if_neg (show ¬(QImage.isNull ⟨.RGB32, w, h, bpl, rows, ct, ad⟩ = true) by
    simp [QImage.isNull]; omega)]
  rw [if_neg (by simp)]
  simp only [normalizeImage, QImageFormat.bitDepth]
  rfl

/-- Reduction of `image2Mat` on a non-null `Format_ARGB32` image with
`dst_channels = 1`: the luminance path with 4 bytes per pixel. -/
theorem i2m_argb32_1 (w h bpl : Nat) (rows : List (List Nat)) (ct : List Nat)
    (ad : Nat) (hw : 0 < w) (hh : 0 < h) :
    image2Mat ⟨.ARGB32, w, h, bpl, rows, ct, ad⟩ 1 =
      { rows := h, cols := w, channels := 1, depth := .d8U,
        data := (List.range h).map (fun i => lumaRow w 4 (rows.getD i [])),
        step := w * 1, addr := 0 } := by
  unfold image2Mat
  rw [if_neg (show ¬(QImage.isNull ⟨.ARGB32, w, h, bpl, rows, ct, ad⟩ = true) by
    simp [QImage.isNull]; omega)]
  rw [if_neg (by simp)]
  simp only [normalizeImage, QImageFormat.bitDepth]
  rfl

/-- Reduction of `image2Mat` on a non-null `Format_RGB888` image with
`dst_channels = 1`: the luminance path with 3 bytes per pixel. -/
theorem i2m_rgb888_1 (w h bpl : Nat) (rows : List (List Nat)) (ct : List Nat)
    (ad : Nat) (hw : 0 < w) (hh : 0 < h) :
    image2Mat ⟨.RGB888, w, h, bpl, rows, ct, ad⟩ 1 =
      { rows := h, cols := w, channels := 1, depth := .d8U,
        data := (List.range h).map (fun i => lumaRow w 3 (rows.getD i [])),
        step := w * 1, addr := 0 } := by
  unfold image2Mat
  rw [if_neg (show ¬(QImage.isNull ⟨.RGB888, w, h, bpl, rows, ct, ad⟩ = true) by
    simp [QImage.isNull]; omega)]
  rw [if_neg (by simp)]
  simp only [normalizeImage, QImageFormat.bitDepth]
  rfl

/-- A 1-by-2 `Format_ARGB32` image: pixel 0 has physical bytes
`(B,G,R,A) = (10,20,30,255)`, pixel 1 is opaque white. -/
def img32Sample : QImage :=
  { format := .ARGB32, width := 2, height := 1, bpl := 8,
    qrows := [[10, 20, 30, 255, 255, 255, 255, 255]], colorTable := [], addr := 0 }

/-- C1, counterexample: on the 32-bit path the claim asserts that the
white triplet `(255,255,255)` yields 255, but the luminance weights sum
to 32764, so `image2Mat` with `dst_channels = 1` maps opaque white to
`floor(255 * 32764 / 32768) = 254`. -/
theorem luma_rgb32_white_is_254 :
    (image2Mat img32Sample 1).elem 0 1 = 254 ∧
      (image2Mat img32Sample 1).elem 0 1 ≠ 255 := by
  constructor
  · decide
  · decide

/-- C1 (amended): for every `Format_RGB32` / `Format_ARGB32` source
converted with `dst_channels = 1`, output byte `(i,j)` equals
`floor((R*9798 + G*19238 + B*3728) / 32768)` where `B`, `G`, `R` are the
pixel's first, second and third physical bytes; hence `(B,G,R)=(10,20,30)`
yields 21, `(0,0,0)` yields 0, and `(255,255,255)` yields 254 (not 255:
the weights sum to 32764, so the white point loses one step). -/
theorem luma_rgb32_weights (img : QImage) (i j : Nat)
    (hf : img.format = .RGB32 ∨ img.format = .ARGB32)
    (hi : i < img.height) (hj : j < img.width) :
    (image2Mat img 1).elem i j =
      (img.byte i (4 * j + 2) * 9798 + img.byte i (4 * j + 1) * 19238 +
        img.byte i (4 * j) * 3728) / 32768 := by
  have hw : 0 < img.width := by omega
  have hh : 0 < img.height := by omega
  rcases img with ⟨fmt, w, h, bpl, rows, ct, ad⟩
  rcases hf with hf | hf <;> subst hf <;>
  · first
    | rw [i2m_rgb32_1 w h bpl rows ct ad hw hh]
    | rw [i2m_argb32_1 w h bpl rows ct ad hw hh]
    simp only [CvMat.elem, QImage.byte, QImage.scanLine]
    rw [getD_range_map _ _ _ _ hi]
    unfold lumaRow
    rw [getD_range_map _ _ _ _ hj]
    omega

/-- C1, witness: on `img32Sample`, pixel 0 — the claim's triplet
`(B,G,R) = (10,20,30)` — is mapped to
`floor((30*9798 + 20*19238 + 10*3728)/32768) = 21`. -/
theorem luma_rgb32_weights_witness :
    (image2Mat img32Sample 1).elem 0 0 = 21 := by
  have h := luma_rgb32_weights img32Sample 0 0 (Or.inr rfl)
    (by decide) (by decide)
  rw [h]
  decide

/-- A 1-by-2 `Format_RGB888` image: pixel 0 has physical bytes
`(R,G,B) = (10,20,30)`, pixel 1 `(40,50,60)`; two padding bytes. -/
def img888Sample : QImage :=
  { format := .RGB888, width := 2, height := 1, bpl := 8,
    qrows := [[10, 20, 30, 40, 50, 60, 0, 0]], colorTable := [], addr := 0 }

/-- C10: for every `Format_RGB888` source (3 bytes per pixel in `R,G,B`
physical order) converted with `dst_channels = 1`, output byte `(i,j)`
equals `floor((R*3728 + G*19238 + B*9798) / 32768)`: the same positional
weights `(3728, 19238, 9798)` are applied to the first, second and third
physical bytes as on the 32-bit path, so here red gets weight 3728 and
blue gets 9798 — the reverse channel-to-weight binding of the 32-bit
path. -/
theorem luma_rgb888_weights (img : QImage) (i j : Nat)
    (hf : img.format = .RGB888)
    (hi : i < img.height) (hj : j < img.width) :
    (image2Mat img 1).elem i j =
      (img.byte i (3 * j) * 3728 + img.byte i (3 * j + 1) * 19238 +
        img.byte i (3 * j + 2) * 9798) / 32768 := by
  have hw : 0 < img.width := by omega
  have hh : 0 < img.height := by omega
  rcases img with ⟨fmt, w, h, bpl, rows, ct, ad⟩
  subst hf
  rw [i2m_rgb888_1 w h bpl rows ct ad hw hh]
  simp only [CvMat.elem, QImage.byte, QImage.scanLine]
  rw [getD_range_map _ _ _ _ hi]
  unfold lumaRow
  rw [getD_range_map _ _ _ _ hj]

/-- C10, witness: on `img888Sample`, pixel 0 `(R,G,B) = (10,20,30)` maps
to `floor((10*3728 + 20*19238 + 30*9798)/32768) = 21` — red bound to
weight 3728, blue to 9798. -/
theorem luma_rgb888_weights_witness :
    (image2Mat img888Sample 1).elem 0 0 =
      (10 * 3728 + 20 * 19238 + 30 * 9798) / 32768 := by
  have h := luma_rgb888_weights img888Sample 0 0 rfl (by decide) (by decide)
  rw [h]
  decide

/-! ## C2: the 16-bit depth rescale -/

/-- Row `i` of a list of rows all of length `n` has length `n`. -/
theorem getD_length_of_forall {α : Type} (l : List (List α)) (n i : Nat)
    (h : ∀ r ∈ l, r.length = n) (hi : i < l.length) :
    (l.getD i []).length = n := by
  rw [List.getD_eq_getElem?_getD, List.getElem?_eq_getElem hi]
  exact h _ (List.getElem_mem hi)

/-- Reduction of `mat2Image` on a nonempty `CV_16UC1` mat with an
`Format_Indexed8` destination: Depth Normalizer then row copy. -/
theorem m2i_indexed8_16u1 (r c : Nat) (dat : List (List Nat)) (st ad : Nat)
    (hr : 0 < r) (hc : 0 < c) :
    mat2Image ⟨r, c, 1, .d16U, dat, st, ad⟩ .Indexed8 =
      { format := .Indexed8, width := c, height := r, bpl := qBytesPerLine c 8,
        qrows := (List.range r).map (fun i =>
          padRow (qBytesPerLine c 8)
            (((dat.map (fun row => row.map rescale16)).getD i []).take c)),
        colorTable := grayColorTable, addr := 0 } := by
  unfold mat2Image
  rw [if_neg (show ¬(CvMat.isEmpty ⟨r, c, 1, .d16U, dat, st, ad⟩ = true) by
    simp [CvMat.isEmpty]; omega)]
  rfl

/-- C2: in `mat2Image`, a 16-bit unsigned source is rescaled to 8 bits by
truncation of `value * 255 / 65535` (so 65535 maps to 255, 0 to 0, and
32768 to `floor(32768*255/65535) = 127`). -/
theorem depth16_rescale_trunc (m : CvMat) (i j : Nat) (hwf : m.WF)
    (hd : m.depth = .d16U) (hc : m.channels = 1)
    (hi : i < m.rows) (hj : j < m.cols) :
    (mat2Image m .Indexed8).byte i j = m.elem i j * 255 / 65535 := by
  have hr : 0 < m.rows := by omega
  have hcc : 0 < m.cols := by omega
  obtain ⟨hlen, hrows⟩ := hwf
  rcases m with ⟨r, c, ch, dep, dat, st, ad⟩
  subst hd
  subst hc
  simp only at hlen hrows hi hj hr hcc
  rw [m2i_indexed8_16u1 r c dat st ad hr hcc]
  simp only [QImage.byte, QImage.scanLine, CvMat.elem]
  rw [getD_range_map _ _ _ _ hi]
  rw [getD_map_nil _ dat i rfl]
  have hlr : (dat.getD i []).length = c := by
    have := getD_length_of_forall dat (c * 1) i hrows (by omega)
    omega
  rw [List.take_of_length_le (by rw [List.length_map]; omega),
    padRow_getD_lt _ _ _ (by rw [List.length_map]; omega)]
  rw [getD_map_lt rescale16 _ j 0 0 (by omega)]
  rfl

/-- A 1-by-3 `CV_16UC1` mat holding the claim-cited values 0, 32768, 65535. -/
def mat16Sample : CvMat :=
  { rows := 1, cols := 3, channels := 1, depth := .d16U,
    data := [[0, 32768, 65535]], step := 6, addr := 0 }

/-- C2, witness: the three cited 16-bit values rescale by truncation to
0, 127 and 255. -/
theorem depth16_rescale_trunc_witness :
    (mat2Image mat16Sample .Indexed8).byte 0 0 = 0 ∧
      (mat2Image mat16Sample .Indexed8).byte 0 1 = 127 ∧
      (mat2Image mat16Sample .Indexed8).byte 0 2 = 255 := by
  refine ⟨?_, ?_, ?_⟩ <;>
  · rw [depth16_rescale_trunc mat16Sample _ _ (by decide) rfl rfl
      (by decide) (by decide)]
    decide

/-! ## C3: the all-8-bit matching-channel round trip -/

/-- Reduction of `image2Mat` on a non-null `Format_RGB888` image with
`dst_channels = 3`: the row-memcpy fast path. -/
theorem i2m_rgb888_3 (w h bpl : Nat) (rows : List (List Nat)) (ct : List Nat)
    (ad : Nat) (hw : 0 < w) (hh : 0 < h) :
    image2Mat ⟨.RGB888, w, h, bpl, rows, ct, ad⟩ 3 =
      { rows := h, cols := w, channels := 3, depth := .d8U,
        data := (List.range h).map (fun i => (rows.getD i []).take (w * 3)),
        step := w * 3, addr := 0 } := by
  unfold image2Mat
  rw [if_neg (show ¬(QImage.isNull ⟨.RGB888, w, h, bpl, rows, ct, ad⟩ = true) by
    simp [QImage.isNull]; omega)]
  rw [if_neg (by simp)]
  simp only [normalizeImage, QImageFormat.bitDepth]
  rfl

/-- Reduction of `mat2Image` on a nonempty `CV_8UC3` mat with a
`Format_RGB888` destination: the row-memcpy fast path. -/
theorem m2i_rgb888_8u3 (r c : Nat) (dat : List (List Nat)) (st ad : Nat)
    (hr : 0 < r) (hc : 0 < c) :
    mat2Image ⟨r, c, 3, .d8U, dat, st, ad⟩ .RGB888 =
      { format := .RGB888, width := c, height := r, bpl := qBytesPerLine c 24,
        qrows := (List.range r).map (fun i =>
          padRow (qBytesPerLine c 24) ((dat.getD i []).take (c * 3))),
        colorTable := [], addr := 0 } := by
  unfold mat2Image
  rw [if_neg (show ¬(CvMat.isEmpty ⟨r, c, 3, .d8U, dat, st, ad⟩ = true) by
    simp [CvMat.isEmpty]; omega)]
  rfl

/-- C3: for every non-null well-formed `Format_RGB888` source whose rows
are tightly packed (`4 ∣ width*3`, so Qt adds no scan-line padding), the
composition `image2Mat (mat2Image (image2Mat x 3) RGB888) 3` reproduces
the source's pixel bytes exactly, row by row. -/
theorem roundtrip_rgb888 (x : QImage) (hwf : x.WF) (hf : x.format = .RGB888)
    (hp : 4 ∣ x.width * 3) (hn : x.isNull = false) :
    (image2Mat (mat2Image (image2Mat x 3) .RGB888) 3).rows = x.height ∧
    (image2Mat (mat2Image (image2Mat x 3) .RGB888) 3).cols = x.width ∧
    ∀ i, i < x.height →
      (image2Mat (mat2Image (image2Mat x 3) .RGB888) 3).data.getD i [] =
        (x.qrows.getD i []).take (x.width * 3) := by
  obtain ⟨hlen, hrows, hbpl⟩ := hwf
  have hw : 0 < x.width := by
    rcases Nat.eq_zero_or_pos x.width with h0 | h0
    · exfalso; unfold QImage.isNull at hn; rw [h0] at hn; simp at hn
    · exact h0
  have hh : 0 < x.height := by
    rcases Nat.eq_zero_or_pos x.height with h0 | h0
    · exfalso; unfold QImage.isNull at hn; rw [h0] at hn; simp at hn
    · exact h0
  rcases x with ⟨fmt, w, h, bpl, rows, ct, ad⟩
  subst hf
  simp only at hlen hrows hbpl hw hh hp ⊢
  have hb3 : w * 3 ≤ bpl := by
    simpa [QImageFormat.bitDepth] using hbpl
  have hq : qBytesPerLine w 24 = w * 3 := by
    have := qBPL_tight w 24 (by norm_num) (by simpa using hp)
    simpa using this
  rw [i2m_rgb888_3 w h bpl rows ct ad hw hh]
  rw [m2i_rgb888_8u3 h w _ (w * 3) 0 hh hw]
  rw [i2m_rgb888_3 w h (qBytesPerLine w 24) _ [] 0 hw hh]
  refine ⟨rfl, rfl, ?_⟩
  intro i hi
  rw [getD_range_map _ _ _ _ hi, getD_range_map _ _ _ _ hi,
    getD_range_map _ _ _ _ hi]
  have hlr : (rows.getD i []).length = bpl :=
    getD_length_of_forall rows bpl i hrows (by omega)
  rw [List.take_take, Nat.min_self]
  rw [padRow_eq_self _ _ (by rw [hq, List.length_take]; omega)]
  rw [List.take_take, Nat.min_self]

/-- A 1-by-4 tightly packed `Format_RGB888` image (`4*3 = 12` bytes per
row, already a multiple of 4). -/
def img888Tight : QImage :=
  { format := .RGB888, width := 4, height := 1, bpl := 12,
    qrows := [[1, 2, 3, 4, 5, 6, 7, 8, 9, 10, 11, 12]],
    colorTable := [], addr := 0 }

/-- C3, witness: the round trip on `img888Tight` returns its row
byte-for-byte. -/
theorem roundtrip_rgb888_witness :
    (image2Mat (mat2Image (image2Mat img888Tight 3) .RGB888) 3).data.getD 0 [] =
      (img888Tight.qrows.getD 0 []).take (img888Tight.width * 3) :=
  (roundtrip_rgb888 img888Tight (by decide) rfl (by decide) (by decide)).2.2
    0 (by decide)

/-! ## C4: the alpha fill -/

/-- The 4th byte of pixel `j` written by `gray4Row` is 255. -/
theorem gray4Row_alpha (w : Nat) (r : List Nat) (j : Nat) (hj : j < w) :
    (gray4Row w r).getD (4 * j + 3) 0 = 255 := by
  unfold gray4Row
  rw [flatMap_const_getD (fun j => [r.getD j 0, r.getD j 0, r.getD j 0, 255])
    4 (fun _ => rfl) w j 3 0 hj (by omega)]
  rfl

/-- The 4th byte of pixel `j` written by `rgb3to4Row` is 255. -/
theorem rgb3to4Row_alpha (w : Nat) (r : List Nat) (j : Nat) (hj : j < w) :
    (rgb3to4Row w r).getD (4 * j + 3) 0 = 255 := by
  unfold rgb3to4Row
  rw [flatMap_const_getD
    (fun j => [r.getD (3 * j) 0, r.getD (3 * j + 1) 0, r.getD (3 * j + 2) 0, 255])
    4 (fun _ => rfl) w j 3 0 hj (by omega)]
  rfl

/-- `gray4Row` writes 4 bytes per pixel. -/
theorem gray4Row_length (w : Nat) (r : List Nat) :
    (gray4Row w r).length = w * 4 :=
  flatMap_const_length (fun j => [r.getD j 0, r.getD j 0, r.getD j 0, 255])
    4 (fun _ => rfl) w

/-- `rgb3to4Row` writes 4 bytes per pixel. -/
theorem rgb3to4Row_length (w : Nat) (r : List Nat) :
    (rgb3to4Row w r).length = w * 4 :=
  flatMap_const_length
    (fun j => [r.getD (3 * j) 0, r.getD (3 * j + 1) 0, r.getD (3 * j + 2) 0, 255])
    4 (fun _ => rfl) w

/-- Reduction of `image2Mat` on a non-null `Format_Indexed8` image with
`dst_channels = 4`: gray replication plus opaque alpha. -/
theorem i2m_indexed8_4 (w h bpl : Nat) (rows : List (List Nat)) (ct : List Nat)
    (ad : Nat) (hw : 0 < w) (hh : 0 < h) :
    image2Mat ⟨.Indexed8, w, h, bpl, rows, ct, ad⟩ 4 =
      { rows := h, cols := w, channels := 4, depth := .d8U,
        data := (List.range h).map (fun i => gray4Row w (rows.getD i [])),
        step := w * 4, addr := 0 } := by
  unfold image2Mat
  rw [if_neg (show ¬(QImage.isNull ⟨.Indexed8, w, h, bpl, rows, ct, ad⟩ = true) by
    simp [QImage.isNull]; omega)]
  rw [if_neg (by simp)]
  simp only [normalizeImage, QImageFormat.bitDepth]
  rfl

/-- Reduction of `image2Mat` on a non-null `Format_RGB888` image with
`dst_channels = 4`: 3-byte copy plus opaque alpha. -/
theorem i2m_rgb888_4 (w h bpl : Nat) (rows : List (List Nat)) (ct : List Nat)
    (ad : Nat) (hw : 0 < w) (hh : 0 < h) :
    image2Mat ⟨.RGB888, w, h, bpl, rows, ct, ad⟩ 4 =
      { rows := h, cols := w, channels := 4, depth := .d8U,
        data := (List.range h).map (fun i => rgb3to4Row w (rows.getD i [])),
        step := w * 4, addr := 0 } := by
  unfold image2Mat
  rw [if_neg (show ¬(QImage.isNull ⟨.RGB888, w, h, bpl, rows, ct, ad⟩ = true) by
    simp [QImage.isNull]; omega)]
  rw [if_neg (by simp)]
  simp only [normalizeImage, QImageFormat.bitDepth]
  rfl

/-- Reduction of `mat2Image` on a nonempty `CV_8UC1` mat with a
`Format_RGB32` destination. -/
theorem m2i_rgb32_8u1 (r c : Nat) (dat : List (List Nat)) (st ad : Nat)
    (hr : 0 < r) (hc : 0 < c) :
    mat2Image ⟨r, c, 1, .d8U, dat, st, ad⟩ .RGB32 =
      { format := .RGB32, width := c, height := r, bpl := qBytesPerLine c 32,
        qrows := (List.range r).map (fun i =>
          padRow (qBytesPerLine c 32) (gray4Row c (dat.getD i []))),
        colorTable := [], addr := 0 } := by
  unfold mat2Image
  rw [if_neg (show ¬(CvMat.isEmpty ⟨r, c, 1, .d8U, dat, st, ad⟩ = true) by
    simp [CvMat.isEmpty]; omega)]
  rfl

/-- Reduction of `mat2Image` on a nonempty `CV_16UC1` mat with a
`Format_RGB32` destination: Depth Normalizer then gray replication. -/
theorem m2i_rgb32_16u1 (r c : Nat) (dat : List (List Nat)) (st ad : Nat)
    (hr : 0 < r) (hc : 0 < c) :
    mat2Image ⟨r, c, 1, .d16U, dat, st, ad⟩ .RGB32 =
      { format := .RGB32, width := c, height := r, bpl := qBytesPerLine c 32,
        qrows := (List.range r).map (fun i =>
          padRow (qBytesPerLine c 32)
            (gray4Row c ((dat.map (fun row => row.map rescale16)).getD i []))),
        colorTable := [], addr := 0 } := by
  unfold mat2Image
  rw [if_neg (show ¬(CvMat.isEmpty ⟨r, c, 1, .d16U, dat, st, ad⟩ = true) by
    simp [CvMat.isEmpty]; omega)]
  rfl

/-- Reduction of `mat2Image` on a nonempty `CV_8UC3` mat with a
`Format_RGB32` destination. -/
theorem m2i_rgb32_8u3 (r c : Nat) (dat : List (List Nat)) (st ad : Nat)
    (hr : 0 < r) (hc : 0 < c) :
    mat2Image ⟨r, c, 3, .d8U, dat, st, ad⟩ .RGB32 =
      { format := .RGB32, width := c, height := r, bpl := qBytesPerLine c 32,
        qrows := (List.range r).map (fun i =>
          padRow (qBytesPerLine c 32) (rgb3to4Row c (dat.getD i []))),
        colorTable := [], addr := 0 } := by
  unfold mat2Image
  rw [if_neg (show ¬(CvMat.isEmpty ⟨r, c, 3, .d8U, dat, st, ad⟩ = true) by
    simp [CvMat.isEmpty]; omega)]
  rfl

/-- Reduction of `mat2Image` on a nonempty `CV_16UC3` mat with a
`Format_RGB32` destination. -/
theorem m2i_rgb32_16u3 (r c : Nat) (dat : List (List Nat)) (st ad : Nat)
    (hr : 0 < r) (hc : 0 < c) :
    mat2Image ⟨r, c, 3, .d16U, dat, st, ad⟩ .RGB32 =
      { format := .RGB32, width := c, height := r, bpl := qBytesPerLine c 32,
        qrows := (List.range r).map (fun i =>
          padRow (qBytesPerLine c 32)
            (rgb3to4Row c ((dat.map (fun row => row.map rescale16)).getD i []))),
        colorTable := [], addr := 0 } := by
  unfold mat2Image
  rw [if_neg (show ¬(CvMat.isEmpty ⟨r, c, 3, .d16U, dat, st, ad⟩ = true) by
    simp [CvMat.isEmpty]; omega)]
  rfl

/-- C4: every conversion of a gray or 3-channel source to a 4-channel
destination — `image2Mat` with `dst_channels = 4` on an `Indexed8` or
`RGB888` image, and `mat2Image` to `Format_RGB32` on a 1- or 3-channel
mat — sets every output pixel's 4th byte to exactly 255. -/
theorem alpha_fill_255 :
    (∀ (img : QImage) (i j : Nat),
        (img.format = .Indexed8 ∨ img.format = .RGB888) →
        i < img.height → j < img.width →
        (image2Mat img 4).elem i (4 * j + 3) = 255) ∧
    (∀ (m : CvMat) (i j : Nat),
        (m.channels = 1 ∨ m.channels = 3) →
        i < m.rows → j < m.cols →
        (mat2Image m .RGB32).byte i (4 * j + 3) = 255) := by
  constructor
  · intro img i j hf hi hj
    have hw : 0 < img.width := by omega
    have hh : 0 < img.height := by omega
    rcases img with ⟨fmt, w, h, bpl, rows, ct, ad⟩
    rcases hf with hf | hf <;> subst hf <;>
    · first
      | rw [i2m_indexed8_4 w h bpl rows ct ad hw hh]
      | rw [i2m_rgb888_4 w h bpl rows ct ad hw hh]
      simp only [CvMat.elem]
      rw [getD_range_map _ _ _ _ hi]
      first
      | exact gray4Row_alpha w _ j hj
      | exact rgb3to4Row_alpha w _ j hj
  · intro m i j hch hi hj
    have hr : 0 < m.rows := by omega
    have hc : 0 < m.cols := by omega
    rcases m with ⟨r, c, ch, dep, dat, st, ad⟩
    simp only at hi hj hr hc
    rcases hch with hch | hch <;> subst hch <;> cases dep <;>
    · first
      | rw [m2i_rgb32_8u1 r c dat st ad hr hc]
      | rw [m2i_rgb32_16u1 r c dat st ad hr hc]
      | rw [m2i_rgb32_8u3 r c dat st ad hr hc]
      | rw [m2i_rgb32_16u3 r c dat st ad hr hc]
      simp only [QImage.byte, QImage.scanLine]
      rw [getD_range_map _ _ _ _ hi]
      rw [padRow_getD_lt _ _ _ (by
        first
        | rw [gray4Row_length]
        | rw [rgb3to4Row_length]
        omega)]
      first
      | exact gray4Row_alpha c _ j hj
      | exact rgb3to4Row_alpha c _ j hj

/-- A 1-by-1 gray image and a 1-by-1 3-channel mat for the C4 witness. -/
def imgGray1 : QImage :=
  { format := .Indexed8, width := 1, height := 1, bpl := 4,
    qrows := [[7, 0, 0, 0]], colorTable := [], addr := 0 }

/-- A 1-by-1 `CV_8UC3` mat for the C4 witness. -/
def matBgr1 : CvMat :=
  { rows := 1, cols := 1, channels := 3, depth := .d8U,
    data := [[9, 8, 7]], step := 3, addr := 0 }

/-- C4, witness: both directions set the 4th byte of pixel 0 to 255. -/
theorem alpha_fill_255_witness :
    (image2Mat imgGray1 4).elem 0 3 = 255 ∧
      (mat2Image matBgr1 .RGB32).byte 0 3 = 255 :=
  ⟨alpha_fill_255.1 imgGray1 0 0 (Or.inl rfl) (by decide) (by decide),
   alpha_fill_255.2 matBgr1 0 0 (Or.inr rfl) (by decide) (by decide)⟩

/-! ## C5: output strides of the copying conversions -/

/-- A 1-by-3 `CV_8UC1` mat whose `Format_Indexed8` image has a padded
scan line (Qt aligns `bytesPerLine` to 4). -/
def matGray3 : CvMat :=
  { rows := 1, cols := 3, channels := 1, depth := .d8U,
    data := [[5, 6, 7]], step := 3, addr := 0 }

/-- C5, counterexample: `mat2Image` of a 3-wide 1-channel mat yields an
image whose stride is 4, not `width * channels * bytes_per_channel = 3` —
Qt pads scan lines to a multiple of 4 bytes, so the claim that every
copying conversion produces tightly packed rows fails. -/
theorem m2i_stride_padded :
    (mat2Image matGray3 .Indexed8).bpl = 4 ∧
      (mat2Image matGray3 .Indexed8).width *
        (QImageFormat.Indexed8.bitDepth / 8) = 3 ∧
      (mat2Image matGray3 .Indexed8).bpl ≠
        (mat2Image matGray3 .Indexed8).width *
          (QImageFormat.Indexed8.bitDepth / 8) := by
  refine ⟨by decide, by decide, by decide⟩

/-- C5 (amended): buffers produced by `image2Mat` are always tightly
packed (`step = cols * channels`, one byte per channel); buffers produced
by `mat2Image` have their scan lines aligned to 4 bytes
(`bpl = qBytesPerLine width depth`), which equals
`width * bytes_per_pixel` exactly when the latter is divisible by 4. -/
theorem conversion_strides :
    (∀ (img : QImage) (c : Nat),
        (image2Mat img c).step =
          (image2Mat img c).cols * (image2Mat img c).channels) ∧
    (∀ (m : CvMat) (f : QImageFormat),
        (f = .RGB32 ∨ f = .RGB888 ∨ f = .Indexed8) → m.isEmpty = false →
        (mat2Image m f).bpl =
            qBytesPerLine (mat2Image m f).width f.bitDepth ∧
          (4 ∣ (mat2Image m f).width * (f.bitDepth / 8) →
            (mat2Image m f).bpl =
              (mat2Image m f).width * (f.bitDepth / 8))) := by
  constructor
  · intro img c
    unfold image2Mat
    split
    · rfl
    split
    · rfl
    rfl
  · intro m f hfm hne
    rcases hfm with rfl | rfl | rfl <;>
    · unfold mat2Image
      rw [if_neg (by simp [hne])]
      refine ⟨rfl, fun hdvd => ?_⟩
      exact qBPL_tight _ _ (by norm_num) hdvd

/-- A 1-by-4 `CV_8UC3` mat: `4 * 3 = 12` is a multiple of 4, so its
`Format_RGB888` image is tightly packed. -/
def matBgr4 : CvMat :=
  { rows := 1, cols := 4, channels := 3, depth := .d8U,
    data := [[1, 2, 3, 4, 5, 6, 7, 8, 9, 10, 11, 12]], step := 12, addr := 0 }

/-- C5, witness: a concrete `image2Mat` output is tightly packed, and a
concrete `mat2Image` output has the 4-byte-aligned stride (tight here
since `4*3` is a multiple of 4). -/
theorem conversion_strides_witness :
    (image2Mat img888Tight 3).step =
        (image2Mat img888Tight 3).cols * (image2Mat img888Tight 3).channels ∧
      (mat2Image matBgr4 .RGB888).bpl =
        qBytesPerLine (mat2Image matBgr4 .RGB888).width
          QImageFormat.RGB888.bitDepth ∧
      (mat2Image matBgr4 .RGB888).bpl =
        (mat2Image matBgr4 .RGB888).width *
          (QImageFormat.RGB888.bitDepth / 8) :=
  ⟨conversion_strides.1 img888Tight 3,
   (conversion_strides.2 matBgr4 .RGB888 (Or.inr (Or.inl rfl)) (by decide)).1,
   (conversion_strides.2 matBgr4 .RGB888 (Or.inr (Or.inl rfl)) (by decide)).2
     (by decide)⟩

/-! ## C6: rejection on the zero-copy paths -/

/-- A non-null `Format_Indexed8` image with a padded stride
(`width = 3`, `bpl = 4`). -/
def imgPadded : QImage :=
  { format := .Indexed8, width := 3, height := 1, bpl := 4,
    qrows := [[1, 2, 3, 0]], colorTable := [], addr := 100 }

/-- C6, counterexample: the zero-copy path does NOT reject a source with
a non-tightly-packed stride: `image2Mat_shared` on a padded `Indexed8`
image returns a non-empty view carrying the source's stride
(`img.bytesPerLine()` is passed straight into the `cv::Mat`
constructor), not the empty sentinel the claim requires. -/
theorem shared_accepts_padded_stride :
    imgPadded.bpl ≠
        imgPadded.width * (QImageFormat.Indexed8.bitDepth / 8) ∧
      image2Mat_shared imgPadded ≠ emptyMat ∧
      (image2Mat_shared imgPadded).isEmpty = false ∧
      (image2Mat_shared imgPadded).step = imgPadded.bpl := by
  refine ⟨by decide, by decide, by decide, by decide⟩

/-- C6 (amended): `image2Mat_shared` returns the empty sentinel for every
image format outside {Indexed8, RGB888, RGB32, ARGB32}, and
`mat2Image_shared` returns the empty sentinel for every mat that is not
8-bit with 1, 3 or 4 channels — with no fallback to a copy.  (Sources
with padded strides are NOT rejected: the view is returned with the
source's stride.) -/
theorem shared_rejects_unsupported :
    (∀ img : QImage, (img.format = .RGB16 ∨ img.format = .Invalid) →
        image2Mat_shared img = emptyMat) ∧
    (∀ m : CvMat,
        (m.depth = .d16U ∨ (m.channels ≠ 1 ∧ m.channels ≠ 3 ∧ m.channels ≠ 4)) →
        mat2Image_shared m = emptyImage) := by
  constructor
  · intro img hf
    unfold image2Mat_shared
    split
    · rfl
    · rcases hf with hf | hf <;> rw [hf]
  · intro m hm
    unfold mat2Image_shared
    split
    · rfl
    · rcases hm with hd | ⟨h1, h3, h4⟩
      · rw [if_neg (by rintro ⟨hx, h⟩; rw [hd] at hx; cases hx),
          if_neg (by rintro ⟨hx, h⟩; rw [hd] at hx; cases hx),
          if_neg (by rintro ⟨hx, h⟩; rw [hd] at hx; cases hx)]
      · rw [if_neg (fun hx => h1 hx.2), if_neg (fun hx => h3 hx.2),
          if_neg (fun hx => h4 hx.2)]

/-- A non-null `Format_RGB16` image (unsupported by the shared path). -/
def imgRgb16 : QImage :=
  { format := .RGB16, width := 1, height := 1, bpl := 4,
    qrows := [[255, 255, 0, 0]], colorTable := [], addr := 0 }

/-- A nonempty 2-channel 8-bit mat (unsupported by the shared path). -/
def mat2ch : CvMat :=
  { rows := 1, cols := 1, channels := 2, depth := .d8U,
    data := [[1, 2]], step := 2, addr := 0 }

/-- C6, witness: a non-null RGB16 image and a nonempty 2-channel mat are
both rejected with the empty sentinel. -/
theorem shared_rejects_unsupported_witness :
    image2Mat_shared imgRgb16 = emptyMat ∧
      mat2Image_shared mat2ch = emptyImage :=
  ⟨shared_rejects_unsupported.1 imgRgb16 (Or.inl rfl),
   shared_rejects_unsupported.2 mat2ch
     (Or.inr ⟨by decide, by decide, by decide⟩)⟩

/-! ## C7: degenerate sources return the empty sentinel -/

/-- C7: a null image or empty mat passed to any of the four operations
yields the empty sentinel (`cv::Mat()` / `QImage()`), before any pixel
access. -/
theorem empty_source_sentinels :
    (∀ (img : QImage) (c : Nat), img.isNull = true →
        image2Mat img c = emptyMat) ∧
    (∀ (m : CvMat) (f : QImageFormat), m.isEmpty = true →
        mat2Image m f = emptyImage) ∧
    (∀ img : QImage, img.isNull = true → image2Mat_shared img = emptyMat) ∧
    (∀ m : CvMat, m.isEmpty = true → mat2Image_shared m = emptyImage) := by
  refine ⟨?_, ?_, ?_, ?_⟩
  · intro img c h
    unfold image2Mat
    rw [if_pos h]
    split
    · rfl
    · rfl
  · intro m f h
    unfold mat2Image
    rw [if_pos h]
  · intro img h
    unfold image2Mat_shared
    rw [if_pos h]
  · intro m h
    unfold mat2Image_shared
    rw [if_pos h]

/-- C7, witness: the default-constructed null image and empty mat map to
the empty sentinels through all four operations. -/
theorem empty_source_sentinels_witness :
    image2Mat emptyImage 3 = emptyMat ∧
      mat2Image emptyMat .RGB32 = emptyImage ∧
      image2Mat_shared emptyImage = emptyMat ∧
      mat2Image_shared emptyMat = emptyImage :=
  ⟨empty_source_sentinels.1 emptyImage 3 (by decide),
   empty_source_sentinels.2.1 emptyMat .RGB32 (by decide),
   empty_source_sentinels.2.2.1 emptyImage (by decide),
   empty_source_sentinels.2.2.2 emptyMat (by decide)⟩

/-! ## C8: the synthesized identity grayscale palette -/

/-- C8: whenever a 1-channel buffer is exposed as an indexed-color image
(`mat2Image` with `Format_Indexed8`, and `mat2Image_shared` on a
`CV_8UC1` mat), the result carries a 256-entry palette whose entry `i`
is the gray color `qRgb(i,i,i)`. -/
theorem indexed8_gray_palette :
    (∀ m : CvMat, m.isEmpty = false →
        (mat2Image m .Indexed8).colorTable.length = 256 ∧
          ∀ i, i < 256 →
            (mat2Image m .Indexed8).colorTable.getD i 0 = qRgb i i i) ∧
    (∀ m : CvMat, m.isEmpty = false → m.depth = .d8U → m.channels = 1 →
        (mat2Image_shared m).colorTable.length = 256 ∧
          ∀ i, i < 256 →
            (mat2Image_shared m).colorTable.getD i 0 = qRgb i i i) := by
  constructor
  · intro m hne
    have hct : (mat2Image m .Indexed8).colorTable = grayColorTable := by
      unfold mat2Image
      rw [if_neg (by simp [hne])]
      rfl
    rw [hct]
    constructor
    · unfold grayColorTable
      simp
    · intro i hi
      unfold grayColorTable
      rw [getD_range_map _ _ _ _ hi]
  · intro m hne hd hc
    have hct : (mat2Image_shared m).colorTable = grayColorTable := by
      unfold mat2Image_shared
      rw [if_neg (by simp [hne]), if_pos ⟨hd, hc⟩]
    rw [hct]
    constructor
    · unfold grayColorTable
      simp
    · intro i hi
      unfold grayColorTable
      rw [getD_range_map _ _ _ _ hi]

/-- A 1-by-1 `CV_8UC1` mat for the C8 witness. -/
def matGray1 : CvMat :=
  { rows := 1, cols := 1, channels := 1, depth := .d8U,
    data := [[5]], step := 1, addr := 0 }

/-- C8, witness: concrete palette entries of both indexed-color
results. -/
theorem indexed8_gray_palette_witness :
    (mat2Image matGray1 .Indexed8).colorTable.length = 256 ∧
      (mat2Image matGray1 .Indexed8).colorTable.getD 7 0 = qRgb 7 7 7 ∧
      (mat2Image_shared matGray1).colorTable.getD 255 0 = qRgb 255 255 255 :=
  ⟨(indexed8_gray_palette.1 matGray1 (by decide)).1,
   (indexed8_gray_palette.1 matGray1 (by decide)).2 7 (by decide),
   (indexed8_gray_palette.2 matGray1 (by decide) rfl rfl).2 255 (by decide)⟩

/-! ## C9: zero-copy views alias the source memory -/

/-- C9: on every compatible source, the shared conversions return a view
whose byte-region start address and stride equal the source's, so a
byte read through the view at any memory state — including one obtained
by mutating the source after the call — touches exactly the source's
byte locations; no new pixel storage is allocated. -/
theorem shared_views_alias :
    (∀ img : QImage, img.isNull = false →
        (img.format = .Indexed8 ∨ img.format = .RGB888 ∨
          img.format = .RGB32 ∨ img.format = .ARGB32) →
        (image2Mat_shared img).addr = img.addr ∧
          (image2Mat_shared img).step = img.bpl ∧
          ∀ (mem : Nat → Nat) (i j : Nat),
            byteAt mem (image2Mat_shared img).addr
                (image2Mat_shared img).step i j =
              byteAt mem img.addr img.bpl i j) ∧
    (∀ m : CvMat, m.isEmpty = false → m.depth = .d8U →
        (m.channels = 1 ∨ m.channels = 3 ∨ m.channels = 4) →
        (mat2Image_shared m).addr = m.addr ∧
          (mat2Image_shared m).bpl = m.step ∧
          ∀ (mem : Nat → Nat) (i j : Nat),
            byteAt mem (mat2Image_shared m).addr
                (mat2Image_shared m).bpl i j =
              byteAt mem m.addr m.step i j) := by
  constructor
  · intro img hn hf
    have h1 : (image2Mat_shared img).addr = img.addr := by
      unfold image2Mat_shared
      rw [if_neg (by simp [hn])]
      rcases hf with hf | hf | hf | hf <;> rw [hf]
    have h2 : (image2Mat_shared img).step = img.bpl := by
      unfold image2Mat_shared
      rw [if_neg (by simp [hn])]
      rcases hf with hf | hf | hf | hf <;> rw [hf]
    exact ⟨h1, h2, fun mem i j => by rw [h1, h2]⟩
  · intro m hne hd hch
    have key : (mat2Image_shared m).addr = m.addr ∧
        (mat2Image_shared m).bpl = m.step := by
      unfold mat2Image_shared
      rw [if_neg (by simp [hne])]
      rcases hch with hc | hc | hc
      · rw [if_pos ⟨hd, hc⟩]
        exact ⟨rfl, rfl⟩
      · rw [if_neg (by rintro ⟨h, h2⟩; rw [hc] at h2; simp at h2),
          if_pos ⟨hd, hc⟩]
        exact ⟨rfl, rfl⟩
      · rw [if_neg (by rintro ⟨h, h2⟩; rw [hc] at h2; simp at h2),
          if_neg (by rintro ⟨h, h2⟩; rw [hc] at h2; simp at h2),
          if_pos ⟨hd, hc⟩]
        exact ⟨rfl, rfl⟩
    exact ⟨key.1, key.2, fun mem i j => by rw [key.1, key.2]⟩

/-- A non-null 1-by-2 `Format_RGB32` image at address 64. -/
def imgView : QImage :=
  { format := .RGB32, width := 1, height := 2, bpl := 4,
    qrows := [[1, 2, 3, 4], [5, 6, 7, 8]], colorTable := [], addr := 64 }

/-- A nonempty 1-by-2 `CV_8UC3` mat at address 640. -/
def matView : CvMat :=
  { rows := 1, cols := 2, channels := 3, depth := .d8U,
    data := [[1, 2, 3, 4, 5, 6]], step := 6, addr := 640 }

/-- C9, witness: the shared views of two concrete sources carry the
sources' addresses and strides. -/
theorem shared_views_alias_witness :
    (image2Mat_shared imgView).addr = 64 ∧
      (image2Mat_shared imgView).step = 4 ∧
      (mat2Image_shared matView).addr = 640 ∧
      (mat2Image_shared matView).bpl = 6 := by
  have h1 := shared_views_alias.1 imgView (by decide)
    (Or.inr (Or.inr (Or.inl rfl)))
  have h2 := shared_views_alias.2 matView (by decide) rfl
    (Or.inr (Or.inl rfl))
  exact ⟨h1.1, h1.2.1, h2.1, h2.2.1⟩

end QtOcv
